import Mathlib

/-!
Shallow embedding of `src/utils/data_utils.py` (sova-tts-engine):
the length-bucketed `CustomSampler`, the `TextMelLoader` example assembler
(its alignment / audio branches) and the `TextMelCollate` batch collator,
together with theorems settling the specification's testable properties.

Machine floats never influence control flow in the embedded code paths, so
tensor payloads are modelled as integers (values are only moved around);
lengths and indices are naturals.  Fallible code is modelled with
`Except String`.
-/

namespace DataUtils

/-! ## CustomSampler: bucket construction (`CustomSampler.__init__`) -/

/-- Embedding of `tuple(zip(text_lengths, idxs))` where `idxs = range(N)`:
pairs `(length, index)` starting at index `k`. -/
def withIdxFrom : Nat → List Nat → List (Nat × Nat)
  | _, [] => []
  | k, l :: rest => (l, k) :: withIdxFrom (k + 1) rest

/-- Ascending comparison on the length component, the key
`lambda elem: elem[0]` of the Python `sorted` call. -/
def byLenAsc (a b : Nat × Nat) : Prop := a.1 ≤ b.1

instance : DecidableRel byLenAsc := fun a b => Nat.decLe a.1 b.1

instance : IsTotal (Nat × Nat) byLenAsc := ⟨fun a b => Nat.le_total a.1 b.1⟩

instance : IsTrans (Nat × Nat) byLenAsc := ⟨fun _ _ _ hab hbc => Nat.le_trans hab hbc⟩

/-- Embedding of the greedy bucket loop in `CustomSampler.__init__`
(lines 85–94).  State: remaining sorted `(length, idx)` pairs, the current
window start `minLen` (`min_len`; `max_len` is always `min_len + len_diff`),
the bucket under construction `cur` (`len_idxs`) and the accumulated buckets
`acc` (`self.optimized_idxs`).  Exactly as in the source, the final bucket is
appended only by the `j + 1 == len(...)` check inside the window branch; a
bucket opened by the very last element (the `else` branch at the last
position) is left unflushed when the loop ends. -/
def bucketStep (lenDiff : Nat) : List (Nat × Nat) → Nat → List Nat → List (List Nat) → List (List Nat)
  | [], _, _, acc => acc
  | (length, idx) :: rest, minLen, cur, acc =>
    if minLen ≤ length ∧ length < minLen + lenDiff then
      let cur := cur ++ [idx]
      if rest = [] ∧ cur ≠ [] then
        bucketStep lenDiff rest minLen cur (acc ++ [cur])
      else
        bucketStep lenDiff rest minLen cur acc
    else
      bucketStep lenDiff rest length [idx] (acc ++ [cur])

/-- `self.optimized_idxs` as computed by `CustomSampler.__init__` from the
transcript lengths (`len(elem[1])` per dataset record).  Python's stable
`sorted` is rendered as `insertionSort` on the length component. On an empty
dataset the source raises `IndexError` at `lengths_idxs_pairs[0][0]`; the
claims below concern nonempty datasets, where the branch taken here agrees
with the source. -/
def optimizedIdxs (lenDiff : Nat) (textLengths : List Nat) : List (List Nat) :=
  let sorted := (withIdxFrom 0 textLengths).insertionSort byLenAsc
  bucketStep lenDiff sorted (sorted.headD (0, 0)).1 [] []

/-- `self.idxs` right after construction (before any reshuffle):
`tuple(chain(*self.optimized_idxs))` when `optimize` else `range(N)`. -/
def samplerInitIdxs (optimize : Bool) (lenDiff : Nat) (textLengths : List Nat) : List Nat :=
  if optimize then (optimizedIdxs lenDiff textLengths).flatten
  else List.range textLengths.length

/-! ## CustomSampler.reshuffle -/

/-- Embedding of `_torch_shuffle`: `tuple(iterable[i] for i in p)` where the
permutation `p` (drawn by `torch.randperm` in the source) is passed in
explicitly.  `d` is the out-of-range default of `getD`, never used when `p`
is a permutation of `range(len(l))`. -/
def torchShuffle (p : List Nat) (l : List α) (d : α) : List α :=
  p.map fun i => l.getD i d

/-- The flattened intermediate order of `CustomSampler.reshuffle` in the
`optimize` branch: each stored bucket is shuffled by its own permutation,
the bucket order is shuffled by `orderPerm`, then `list(chain(*idxs))`. -/
def reshuffleFlat (bucketPerms : List (List Nat)) (orderPerm : List Nat)
    (optIdxs : List (List Nat)) : List Nat :=
  (torchShuffle orderPerm (List.zipWith (fun p b => torchShuffle p b 0) bucketPerms optIdxs) []).flatten

/-- `tuple(idxs[i * B:(i + 1) * B] for i in range(len(idxs) // B))`. -/
def chunksOf (batchsize : Nat) (l : List Nat) : List (List Nat) :=
  (List.range (l.length / batchsize)).map fun i => (l.drop (i * batchsize)).take batchsize

/-- Embedding of `CustomSampler.reshuffle` (lines 116–133).  The three
`torch.randperm` draws are passed in as explicit permutations: one per
stored bucket (`bucketPerms`), one for the bucket order / the whole index
tuple (`orderPerm`), and one for the batch-sized chunks (`chunkPerm`). -/
def reshuffle (optimize : Bool) (batchsize : Nat)
    (bucketPerms : List (List Nat)) (orderPerm chunkPerm : List Nat)
    (optIdxs : List (List Nat)) (idxs : List Nat) : List Nat :=
  if optimize then
    let flat := reshuffleFlat bucketPerms orderPerm optIdxs
    (torchShuffle chunkPerm (chunksOf batchsize flat) []).flatten
  else
    torchShuffle orderPerm idxs 0

/-! ## TextMelLoader: the example assembler -/

/-- One assembled training example, the tuple
`(sequence, mel, alignment, ctc_sequence)` returned by
`TextMelLoader.get_data`.  `mel` is the 2-D spectrogram
`[n_mel_channels × time]` as a list of channel rows. -/
structure Example where
  text : List Int
  mel : List (List Int)
  alignment : Option (List (List Int))
  ctc : Option (List Int)
deriving Repr, DecidableEq, Inhabited

/-- `mel.size(1)`: the time dimension of a (rectangular) 2-D tensor given as
a list of channel rows. -/
def melTime (mel : List (List Int)) : Nat := (mel.headD []).length

/-- `a.shape` of a (rectangular) 2-D numpy array. -/
def npShape (a : List (List Int)) : Nat × Nat := (a.length, (a.headD []).length)

/-- `np.zeros(shape=(rows, cols))`. -/
def npZeros (rows cols : Nat) : List (List Int) :=
  List.replicate rows (List.replicate cols 0)

/-- Embedding of `TextMelLoader.get_alignment` (lines 279–289).  The on-disk
alignment store (`np.load` under `self.alignment_path[sub_dir]`, the
"original"/"stressed" subdirectory chosen by `stress`, keyed by the audio
name) is abstracted as the total function `store`; `np.load` failures for
missing files are propagated I/O faults outside this model. -/
def get_alignment (store : Bool → String → List (List Int))
    (audioName : String) (stress phonemes : Bool) : Option (List (List Int)) :=
  if phonemes then
    none
  else
    some (store stress audioName)

/-- The diagnostic line `get_data` prints on an alignment shape mismatch. -/
def shapeDiagnostic (audioName : String) (expected got : Nat × Nat) : String :=
  s!"Some problems with {audioName}: expected {expected} shape, got {got}"

/-- Embedding of the alignment branch of `TextMelLoader.get_data`
(lines 199–210).  When `alignment is None` the source enters the mismatch
branch and the diagnostic `print` evaluates `alignment.shape`, an attribute
access on `None` which raises `AttributeError`; this is modelled as
`Except.error`.  On a genuine shape mismatch the diagnostic is printed
(returned here as a log line) and a zero array of the expected shape is
substituted. -/
def get_data_alignment (audioName : String) (mTime seqLen : Nat)
    (alignment : Option (List (List Int))) :
    Except String (List (List Int) × List String) :=
  match alignment with
  | none => Except.error "AttributeError: NoneType object has no attribute shape"
  | some a =>
    if (mTime, seqLen) ≠ npShape a then
      Except.ok (npZeros mTime seqLen, [shapeDiagnostic audioName (mTime, seqLen) (npShape a)])
    else
      Except.ok (a, [])

/-- Embedding of `TextMelLoader.get_data` (lines 192–216).  The external
text and audio services are abstracted: `sequence` is the symbol sequence
`self.get_text(...)` returned for this sample, `mel` the spectrogram from
`self.get_mel(...)`, and `ctcEncode` is `self.get_ctc_text`.  The returned
log carries any diagnostic printed along the way. -/
def get_data (getAlignments wordLevelProb addSilence useMmi stress phonemes : Bool)
    (store : Bool → String → List (List Int)) (ctcEncode : List Int → List Int)
    (audioName : String) (sequence : List Int) (mel : List (List Int)) :
    Except String (Example × List String) :=
  let ctcSeq : Option (List Int) := if useMmi then some (ctcEncode sequence) else none
  if getAlignments then
    if wordLevelProb || addSilence then
      Except.error "AssertionError: not self.word_level_prob and not self.add_silence"
    else
      match get_data_alignment audioName (melTime mel) sequence.length
          (get_alignment store audioName stress phonemes) with
      | Except.error e => Except.error e
      | Except.ok (a, log) =>
        Except.ok ({ text := sequence, mel := mel, alignment := some a, ctc := ctcSeq }, log)
  else
    Except.ok ({ text := sequence, mel := mel, alignment := none, ctc := ctcSeq }, [])

/-- Embedding of `TextMelLoader.get_audio` (lines 228–256).  The sample
array type is abstract; the float normalization `audio / max_wav_value`,
the librosa silence trim and the `np.append(..., zeros)` silence padding are
the collaborator functions `normalize`, `trim` and `appendSilence`.  The
sample-rate check is taken verbatim from the source. -/
def get_audio {A : Type} (normalize trim appendSilence : A → A)
    (samplingRate : Nat) (trimSilenceFlag addSilenceFlag : Bool)
    (sampleRate : Nat) (audio : A) : Except String A :=
  let audio := normalize audio
  if sampleRate ≠ samplingRate then
    Except.error (toString sampleRate ++ " SR doesn't match target " ++ toString samplingRate ++ " SR")
  else
    let a := audio
    let a := if trimSilenceFlag then trim a else a
    let a := if addSilenceFlag then appendSilence a else a
    Except.ok a

/-! ## TextMelCollate -/

/-- Descending comparison on the text-length component, the order produced
by `torch.sort(..., descending=True)` on `[len(x[0]) for x in batch]`.
`torch.sort` returns indices that the source only uses to fetch `batch[idx]`;
we sort `(length, example)` pairs directly, which yields the same row order
since the comparison inspects lengths only. -/
def byLenDesc (a b : Nat × Example) : Prop := b.1 ≤ a.1

instance : DecidableRel byLenDesc := fun a b => Nat.decLe b.1 a.1

instance : IsTotal (Nat × Example) byLenDesc := ⟨fun a b => Nat.le_total b.1 a.1⟩

instance : IsTrans (Nat × Example) byLenDesc := ⟨fun _ _ _ hab hbc => Nat.le_trans hbc hab⟩

/-- The sorted `(length, example)` pairs of a batch. -/
def sortedPairsOf (batch : List Example) : List (Nat × Example) :=
  (batch.map fun e => (e.text.length, e)).insertionSort byLenDesc

/-- `input_lengths`: the descending-sorted text lengths. -/
def sortedInputLengths (batch : List Example) : List Nat :=
  (sortedPairsOf batch).map fun p => p.1

/-- The batch examples in the order given by `ids_sorted_decreasing`. -/
def sortedExamplesOf (batch : List Example) : List Example :=
  (sortedPairsOf batch).map fun p => p.2

/-- `max_target_len = max([x[1].size(1) for x in batch])` (the `foldr max 0`
agrees with Python `max` on the nonempty batches `collate` accepts). -/
def maxTargetLenOf (batch : List Example) : Nat :=
  (batch.map fun e => melTime e.mel).foldr max 0

/-- `max_ctc_text_len = max([len(x[3]) for x in batch])`. -/
def maxCtcLenOf (batch : List Example) : Nat :=
  (batch.map fun e => (e.ctc.getD []).length).foldr max 0

/-- A zero-initialized row of width `width` whose prefix `[:row.length]` has
been slice-assigned `row` (rows written by `collate` always satisfy
`row.length ≤ width`, the width being the batch-wide maximum). -/
def padRow (row : List Int) (width : Nat) : List Int :=
  row ++ List.replicate (width - row.length) 0

/-- A zero-initialized `rows × cols` matrix whose top-left block has been
slice-assigned `m` (as with `alignments_padded[i, :target_len, :in_len]`). -/
def padMatrix (m : List (List Int)) (rows cols : Nat) : List (List Int) :=
  (m.map fun r => padRow r cols) ++ List.replicate (rows - m.length) (List.replicate cols 0)

/-- Effective start of the Python slice `l[start:]` on a sequence of length
`n`: negative starts count from the end, nonnegative starts are clamped at
`n`. -/
def sliceStart (start : Int) (n : Nat) : Nat :=
  if start < 0 then (start + n).toNat else min start.toNat n

/-- One row of `gate_padded`: zeros, then `gate_padded[i, target_len - 1:] = 1`
(with `target_len - 1` evaluated as a Python slice start, so `target_len = 0`
would wrap to the last frame). -/
def gateRow (targetLen maxTargetLen : Nat) : List Int :=
  (List.range maxTargetLen).map fun t =>
    if sliceStart ((targetLen : Int) - 1) maxTargetLen ≤ t then 1 else 0

/-- The `Inputs(...)` namedtuple assembled by `TextMelCollate.__call__`. -/
structure Inputs where
  text : List (List Int)
  mels : List (List (List Int))
  gate : List (List Int)
  text_len : List Nat
  mel_len : List Nat
deriving Repr, DecidableEq

/-- The `InputsCTC(...)` namedtuple. -/
structure InputsCTC where
  text : List (List Int)
  length : List Nat
deriving Repr, DecidableEq

/-- The full return value `(inputs, alignments_padded, inputs_ctc)`. -/
structure CollateOut where
  inputs : Inputs
  alignments : Option (List (List (List Int)))
  inputs_ctc : Option InputsCTC
deriving Repr, DecidableEq

/-- The tensor-shape side conditions of the copy loop in
`TextMelCollate.__call__`: every mel must have `num_mels` channel rows of
equal time length (`mel_padded[i, :, :target_len] = mel`), and when
alignments are included each must be exactly `(target_len, in_len)`
(`alignments_padded[i, :target_len, :in_len] = alignment`).  Torch raises on
any mismatch; `collate` returns an error then.  (Degenerate size-1
broadcasting is outside the model.) -/
def collateOK (batch : List Example) : Bool :=
  let numMels := ((batch.headD default).mel).length
  let getAlignment := !(batch.any fun e => e.alignment.isNone)
  batch.all fun e =>
    e.mel.length == numMels &&
    e.mel.all (fun ch => ch.length == melTime e.mel) &&
    (!getAlignment ||
      (match e.alignment with
       | some a => a.length == melTime e.mel && a.all fun r => r.length == e.text.length
       | none => false))

/-- The batch built by `TextMelCollate.__call__` once the presence flags,
the sort and the maxima are fixed.  `get_alignment`/`get_ctc_text` are
`not any(elem[k] is None for elem in batch)`, so the `if get_alignment`
guards appear here as `if batch.any (... isNone) then none else some ...`. -/
def collateBuild (batch : List Example) : CollateOut :=
  { inputs :=
      { text := (sortedExamplesOf batch).map fun e =>
          padRow e.text ((sortedInputLengths batch).headD 0)
      , mels := (sortedExamplesOf batch).map fun e =>
          e.mel.map fun ch => padRow ch (maxTargetLenOf batch)
      , gate := (sortedExamplesOf batch).map fun e =>
          gateRow (melTime e.mel) (maxTargetLenOf batch)
      , text_len := sortedInputLengths batch
      , mel_len := (sortedExamplesOf batch).map fun e => melTime e.mel }
  , alignments :=
      if batch.any (fun e => e.alignment.isNone) then none
      else some ((sortedExamplesOf batch).map fun e =>
        padMatrix (e.alignment.getD []) (maxTargetLenOf batch) ((sortedInputLengths batch).headD 0))
  , inputs_ctc :=
      if batch.any (fun e => e.ctc.isNone) then none
      else some
        { text := (sortedExamplesOf batch).map fun e =>
            padRow (e.ctc.getD []) (maxCtcLenOf batch)
        , length := (sortedExamplesOf batch).map fun e => (e.ctc.getD []).length } }

/-- Embedding of `TextMelCollate.__call__`.  On an empty batch the source
raises `IndexError` at `max_input_len = input_lengths[0]` before any
allocation; tensor-shape violations in the copy loop raise in torch; both
are modelled as `Except.error`.  `nFramesPerStep` is carried by the class
but unused: the mel-padding adjustment that consumed it is commented out in
the source. -/
def collate (_nFramesPerStep : Nat) (batch : List Example) : Except String CollateOut :=
  if batch.isEmpty then
    Except.error "IndexError: index 0 out of range"
  else if collateOK batch then
    Except.ok (collateBuild batch)
  else
    Except.error "RuntimeError: shape mismatch in copy loop"

/-! ## Basic sanity examples (concrete evaluations of the embedding) -/

example : optimizedIdxs 10 [1, 3, 15, 16] = [[0, 1], [2, 3]] := by decide

example : optimizedIdxs 10 [1, 15] = [[0]] := by decide

example : samplerInitIdxs true 10 [1, 15] = [0] := by decide

example :
    reshuffle true 2 [[1, 0], [0]] [1, 0] [0] [[0, 1], [2]] [] = [2, 1] := by decide

/-! ## Sampler lemmas -/

/-- Each pair produced by `withIdxFrom k` records the length stored at its
index: `(length, idx)` with `lens[idx - k] = length` and `idx ≥ k`. -/
lemma withIdxFrom_mem : ∀ (lens : List Nat) (k : Nat) (p : Nat × Nat),
    p ∈ withIdxFrom k lens → k ≤ p.2 ∧ lens.getD (p.2 - k) 0 = p.1 := by
  intro lens
  induction lens with
  | nil => intro k p hp; simp [withIdxFrom] at hp
  | cons l rest ih =>
    intro k p hp
    simp only [withIdxFrom, List.mem_cons] at hp
    rcases hp with rfl | hp
    · simp
    · obtain ⟨h1, h2⟩ := ih (k + 1) p hp
      refine ⟨by omega, ?_⟩
      have hsucc : p.2 - k = (p.2 - (k + 1)) + 1 := by omega
      rw [hsucc, List.getD_cons_succ]
      exact h2

/-- Window invariant of the bucket loop: every bucket it ever appends has
all member lengths inside one window of width `lenDiff`, hence pairwise
length differences below `lenDiff`. -/
lemma bucketStep_span (lenDiff : Nat) (lens : List Nat) (hd : 1 ≤ lenDiff) :
    ∀ (pairs : List (Nat × Nat)) (minLen : Nat) (cur : List Nat) (acc : List (List Nat)),
    (∀ p ∈ pairs, lens.getD p.2 0 = p.1) →
    (∀ i ∈ cur, minLen ≤ lens.getD i 0 ∧ lens.getD i 0 < minLen + lenDiff) →
    (∀ b ∈ acc, ∀ i ∈ b, ∀ j ∈ b, lens.getD i 0 < lens.getD j 0 + lenDiff) →
    ∀ b ∈ bucketStep lenDiff pairs minLen cur acc, ∀ i ∈ b, ∀ j ∈ b,
      lens.getD i 0 < lens.getD j 0 + lenDiff := by
  intro pairs
  induction pairs with
  | nil =>
    intro minLen cur acc _ _ hacc
    simpa [bucketStep] using hacc
  | cons hp tl ih =>
    obtain ⟨length, idx⟩ := hp
    intro minLen cur acc hpairs hcur hacc
    have hidx : lens.getD idx 0 = length := hpairs (length, idx) (List.mem_cons_self _ _)
    have htl : ∀ p ∈ tl, lens.getD p.2 0 = p.1 := fun p h => hpairs p (List.mem_cons_of_mem _ h)
    by_cases hw : minLen ≤ length ∧ length < minLen + lenDiff
    · have hcur' : ∀ i ∈ cur ++ [idx],
          minLen ≤ lens.getD i 0 ∧ lens.getD i 0 < minLen + lenDiff := by
        intro i hi
        rcases List.mem_append.1 hi with h | h
        · exact hcur i h
        · rcases List.mem_singleton.1 h with rfl
          rw [hidx]; exact hw
      have hspan : ∀ i ∈ cur ++ [idx], ∀ j ∈ cur ++ [idx],
          lens.getD i 0 < lens.getD j 0 + lenDiff := by
        intro i hi j hj
        have h1 := (hcur' i hi).2
        have h2 := (hcur' j hj).1
        omega
      by_cases hl : tl = [] ∧ cur ++ [idx] ≠ []
      · have heq : bucketStep lenDiff ((length, idx) :: tl) minLen cur acc
            = bucketStep lenDiff tl minLen (cur ++ [idx]) (acc ++ [cur ++ [idx]]) := by
          simp only [bucketStep]
          rw [if_pos hw, if_pos hl]
        rw [heq]
        refine ih minLen (cur ++ [idx]) (acc ++ [cur ++ [idx]]) htl hcur' ?_
        intro b hb
        rcases List.mem_append.1 hb with h | h
        · exact hacc b h
        · rcases List.mem_singleton.1 h with rfl
          exact hspan
      · have heq : bucketStep lenDiff ((length, idx) :: tl) minLen cur acc
            = bucketStep lenDiff tl minLen (cur ++ [idx]) acc := by
          simp only [bucketStep]
          rw [if_pos hw, if_neg hl]
        rw [heq]
        exact ih minLen (cur ++ [idx]) acc htl hcur' hacc
    · have heq : bucketStep lenDiff ((length, idx) :: tl) minLen cur acc
          = bucketStep lenDiff tl length [idx] (acc ++ [cur]) := by
        simp only [bucketStep]
        rw [if_neg hw]
      rw [heq]
      refine ih length [idx] (acc ++ [cur]) htl ?_ ?_
      · intro i hi
        rcases List.mem_singleton.1 hi with rfl
        rw [hidx]
        exact ⟨Nat.le_refl _, by omega⟩
      · intro b hb
        rcases List.mem_append.1 hb with h | h
        · exact hacc b h
        · rcases List.mem_singleton.1 h with rfl
          intro i hi j hj
          have h1 := (hcur i hi).2
          have h2 := (hcur j hj).1
          omega

/-- C8: for every bucket formed by the sampler's construction with bucketing
enabled (and a positive window width `len_diff`), the span of transcript
lengths inside the bucket is strictly less than `len_diff`: any two members
`i, j` satisfy `length i − length j < len_diff`.  This holds for all
buckets, in particular for those of size ≥ 2 as the claim states. -/
theorem c8_bucket_length_span (lenDiff : Nat) (lens : List Nat) (hd : 1 ≤ lenDiff) :
    ∀ b ∈ optimizedIdxs lenDiff lens, ∀ i ∈ b, ∀ j ∈ b,
      lens.getD i 0 < lens.getD j 0 + lenDiff := by
  intro b hb i hi j hj
  simp only [optimizedIdxs] at hb
  refine bucketStep_span lenDiff lens hd _ _ _ _ ?_ (by simp) (by simp) b hb i hi j hj
  intro p hp
  have hp' : p ∈ withIdxFrom 0 lens :=
    ((List.perm_insertionSort byLenAsc (withIdxFrom 0 lens)).mem_iff).1 hp
  simpa using (withIdxFrom_mem lens 0 p hp').2

/-- Witness for C8 on the dataset with transcript lengths `[1, 3, 15, 16]`
and `len_diff = 10`: the bucket `[2, 3]` is formed and the lengths of its
members differ by less than 10. -/
theorem c8_bucket_length_span_witness :
    1 ≤ 10 ∧ [1, 3, 15, 16].getD 3 0 < [1, 3, 15, 16].getD 2 0 + 10 :=
  ⟨by decide,
   c8_bucket_length_span 10 [1, 3, 15, 16] (by decide) [2, 3] (by decide) 3 (by decide) 2 (by decide)⟩

/-- C1: the claim that flattening the buckets always yields every index of
`0..N-1` is false on the code.  On the dataset with transcript lengths
`[1, 15]` and `len_diff = 10` the last sorted element opens a new window,
the bucket it seeds is never appended, and index 1 is silently dropped:
the flattened buckets are `[0]`, not a permutation of `range 2`. -/
theorem c1_bucket_flatten_drops_last_index :
    samplerInitIdxs true 10 [1, 15] = [0] ∧
    ¬ (samplerInitIdxs true 10 [1, 15]).Perm (List.range 2) := by
  exact ⟨by decide, by decide⟩

/-! ## Reshuffle lemmas -/

/-- Reading a list back along `range` of its length is the identity. -/
lemma range_map_getD (l : List α) (d : α) :
    (List.range l.length).map (fun i => l.getD i d) = l := by
  induction l with
  | nil => simp
  | cons a t ih =>
    rw [List.length_cons, List.range_succ_eq_map, List.map_cons, List.map_map]
    simp only [List.getD_cons_zero]
    congr 1

/-- `_torch_shuffle` applied with a genuine permutation of `range(len(l))`
permutes `l`. -/
lemma torchShuffle_perm {p : List Nat} {l : List α} (d : α)
    (h : p.Perm (List.range l.length)) : (torchShuffle p l d).Perm l := by
  have hm := h.map fun i => l.getD i d
  rw [range_map_getD] at hm
  exact hm

/-- Shuffling every bucket with its own permutation leaves the flattened
multiset unchanged. -/
lemma zipWith_shuffle_flatten_perm {ps bs : List (List Nat)}
    (h : List.Forall₂ (fun p b => p.Perm (List.range b.length)) ps bs) :
    (List.zipWith (fun p b => torchShuffle p b 0) ps bs).flatten.Perm bs.flatten := by
  induction h with
  | nil => simp
  | cons h1 _ ih =>
    simp only [List.zipWith_cons_cons, List.flatten_cons]
    exact (torchShuffle_perm 0 h1).append ih

/-- The flattened intermediate order of the `optimize` branch is a
permutation of the stored buckets' flatten. -/
lemma reshuffleFlat_perm {bucketPerms : List (List Nat)} {orderPerm : List Nat}
    {optIdxs : List (List Nat)}
    (hb : List.Forall₂ (fun p b => p.Perm (List.range b.length)) bucketPerms optIdxs)
    (ho : orderPerm.Perm (List.range optIdxs.length)) :
    (reshuffleFlat bucketPerms orderPerm optIdxs).Perm optIdxs.flatten := by
  unfold reshuffleFlat
  have hlen : (List.zipWith (fun p b => torchShuffle p b 0) bucketPerms optIdxs).length
      = optIdxs.length := by
    rw [List.length_zipWith, hb.length_eq, Nat.min_self]
  have h1 : (torchShuffle orderPerm
      (List.zipWith (fun p b => torchShuffle p b 0) bucketPerms optIdxs) []).Perm
      (List.zipWith (fun p b => torchShuffle p b 0) bucketPerms optIdxs) :=
    torchShuffle_perm [] (by rw [hlen]; exact ho)
  exact h1.flatten.trans (zipWith_shuffle_flatten_perm hb)

/-- Concatenating the first `n` batch-sized chunks recovers the first
`n * B` elements. -/
lemma flatten_take_chunks (B : Nat) (l : List Nat) :
    ∀ n, (((List.range n).map fun i => (l.drop (i * B)).take B).flatten) = l.take (n * B) := by
  intro n
  induction n with
  | zero => simp
  | succ m ih =>
    rw [List.range_succ, List.map_append, List.flatten_append]
    simp only [List.map_cons, List.map_nil, List.flatten_cons, List.flatten_nil, List.append_nil]
    rw [ih, Nat.succ_mul, List.take_add]

/-- The chunking step keeps exactly the first `(len / B) * B` elements. -/
lemma flatten_chunksOf (B : Nat) (l : List Nat) :
    (chunksOf B l).flatten = l.take ((l.length / B) * B) :=
  flatten_take_chunks B l (l.length / B)

/-- C4: one `reshuffle` call with genuine `torch.randperm` permutations
preserves the multiset of indices.  With bucketing disabled the result is a
permutation of the stored `idxs` (only order changes).  With bucketing
enabled, the result together with the `len mod batchsize` trailing indices
of the batch-regrouped order (the flattened intermediate order
`reshuffleFlat`) is a permutation of the flattened stored buckets, and that
dropped trailing piece has length exactly `len mod batchsize`. -/
theorem c4_reshuffle_multiset (batchsize : Nat)
    (bucketPerms : List (List Nat)) (orderPerm chunkPerm : List Nat)
    (optIdxs : List (List Nat)) (idxs : List Nat) :
    (orderPerm.Perm (List.range idxs.length) →
      (reshuffle false batchsize bucketPerms orderPerm chunkPerm optIdxs idxs).Perm idxs) ∧
    (List.Forall₂ (fun p b => p.Perm (List.range b.length)) bucketPerms optIdxs →
      orderPerm.Perm (List.range optIdxs.length) →
      chunkPerm.Perm (List.range
        ((reshuffleFlat bucketPerms orderPerm optIdxs).length / batchsize)) →
      ((reshuffle true batchsize bucketPerms orderPerm chunkPerm optIdxs idxs)
          ++ (reshuffleFlat bucketPerms orderPerm optIdxs).drop
               (((reshuffleFlat bucketPerms orderPerm optIdxs).length / batchsize) * batchsize)).Perm
        optIdxs.flatten ∧
      ((reshuffleFlat bucketPerms orderPerm optIdxs).drop
          (((reshuffleFlat bucketPerms orderPerm optIdxs).length / batchsize) * batchsize)).length
        = (reshuffleFlat bucketPerms orderPerm optIdxs).length % batchsize) := by
  constructor
  · intro ho
    exact torchShuffle_perm 0 ho
  · intro hb ho hc
    set flat := reshuffleFlat bucketPerms orderPerm optIdxs with hflat
    have hres : reshuffle true batchsize bucketPerms orderPerm chunkPerm optIdxs idxs
        = (torchShuffle chunkPerm (chunksOf batchsize flat) []).flatten := by
      rw [hflat]
      simp [reshuffle]
    have hclen : (chunksOf batchsize flat).length = flat.length / batchsize := by
      simp [chunksOf]
    have h1 : (torchShuffle chunkPerm (chunksOf batchsize flat) []).Perm
        (chunksOf batchsize flat) :=
      torchShuffle_perm [] (by rw [hclen]; exact hc)
    have h2 : (reshuffle true batchsize bucketPerms orderPerm chunkPerm optIdxs idxs).Perm
        (flat.take ((flat.length / batchsize) * batchsize)) := by
      rw [hres, ← flatten_chunksOf]
      exact h1.flatten
    constructor
    · have h3 := h2.append_right
        (flat.drop ((flat.length / batchsize) * batchsize))
      rw [List.take_append_drop] at h3
      exact h3.trans (reshuffleFlat_perm hb ho)
    · rw [List.length_drop, Nat.mul_comm]
      have hdm := Nat.div_add_mod flat.length batchsize
      omega

/-- Witness for C4 at concrete inputs: with bucketing disabled the shuffle
of `[0, 1, 2]` by the permutation `[2, 0, 1]` is a permutation of
`[0, 1, 2]`; with bucketing enabled, buckets `[[0, 1], [2]]` and batch size
2, the result plus the one dropped trailing index is a permutation of
`[0, 1, 2]` and exactly `3 mod 2 = 1` index is dropped. -/
theorem c4_reshuffle_multiset_witness :
    ((reshuffle false 2 [] [2, 0, 1] [] [] [0, 1, 2]).Perm [0, 1, 2]) ∧
    (((reshuffle true 2 [[1, 0], [0]] [1, 0] [0] [[0, 1], [2]] [])
        ++ (reshuffleFlat [[1, 0], [0]] [1, 0] [[0, 1], [2]]).drop
             (((reshuffleFlat [[1, 0], [0]] [1, 0] [[0, 1], [2]]).length / 2) * 2)).Perm
       ([[0, 1], [2]] : List (List Nat)).flatten ∧
      ((reshuffleFlat [[1, 0], [0]] [1, 0] [[0, 1], [2]]).drop
          (((reshuffleFlat [[1, 0], [0]] [1, 0] [[0, 1], [2]]).length / 2) * 2)).length
        = (reshuffleFlat [[1, 0], [0]] [1, 0] [[0, 1], [2]]).length % 2) := by
  constructor
  · exact (c4_reshuffle_multiset 2 [] [2, 0, 1] [] [] [0, 1, 2]).1 (by decide)
  · exact (c4_reshuffle_multiset 2 [[1, 0], [0]] [1, 0] [0] [[0, 1], [2]] []).2
      (List.Forall₂.cons (by decide) (List.Forall₂.cons (by decide) List.Forall₂.nil))
      (by decide) (by decide)

/-! ## Assembler theorems -/

/-- C2: the alignment loader does return absent for phoneme mode regardless
of the store's contents, but assembling the example then raises instead of
substituting the zero placeholder: with alignment mode on and
`phonemes = true`, `get_data` hits the mismatch branch with
`alignment = None` and the diagnostic `print` evaluates `alignment.shape`
on `None`, raising `AttributeError` — modelled as `Except.error` — so the
claim that assembly does not raise fails on the code. -/
theorem c2_phoneme_alignment_get_data_raises :
    (∀ (store : Bool → String → List (List Int)) (stress : Bool) (name : String),
      get_alignment store name stress true = none) ∧
    get_data true false false false false true (fun _ _ => [[0]]) id "sample" [1, 2] [[0, 0, 0]]
      = Except.error "AttributeError: NoneType object has no attribute shape" := by
  exact ⟨fun _ _ _ => rfl, rfl⟩

/-- C7: with alignment mode enabled and phonemes off, a loaded alignment
whose shape differs from `(mel_time, symbol_len)` is replaced by a
zero-filled array of exactly that shape; assembly returns without raising
and the substitution is surfaced as the diagnostic log line. -/
theorem c7_alignment_shape_mismatch_zero_filled
    (useMmi stress : Bool) (store : Bool → String → List (List Int))
    (ctcEncode : List Int → List Int) (name : String)
    (sequence : List Int) (mel : List (List Int))
    (h : (melTime mel, sequence.length) ≠ npShape (store stress name)) :
    get_data true false false useMmi stress false store ctcEncode name sequence mel
      = Except.ok
          ({ text := sequence, mel := mel,
             alignment := some (npZeros (melTime mel) sequence.length),
             ctc := if useMmi then some (ctcEncode sequence) else none },
           [shapeDiagnostic name (melTime mel, sequence.length) (npShape (store stress name))]) := by
  simp [get_data, get_alignment, get_data_alignment, h]

/-- Witness for C7 with `mel_time = 50`, `symbol_len = 10` and a stored
alignment of shape `(40, 10)`: the assembled alignment is the zero array of
shape `(50, 10)` and the diagnostic is surfaced. -/
theorem c7_alignment_shape_mismatch_zero_filled_witness :
    get_data true false false false false false (fun _ _ => npZeros 40 10) id "sample"
        (List.replicate 10 1) [List.replicate 50 2]
      = Except.ok
          ({ text := List.replicate 10 1, mel := [List.replicate 50 2],
             alignment := some (npZeros 50 10),
             ctc := none },
           [shapeDiagnostic "sample" (50, 10) (40, 10)]) :=
  c7_alignment_shape_mismatch_zero_filled false false (fun _ _ => npZeros 40 10) id "sample"
    (List.replicate 10 1) [List.replicate 50 2] (by decide)

/-- C9: a sample rate differing from the configured target sampling rate
makes `get_audio` raise immediately, before any trimming or silence
padding. -/
theorem c9_sample_rate_mismatch_raises {A : Type}
    (normalize trim appendSilence : A → A) (samplingRate : Nat)
    (trimSilenceFlag addSilenceFlag : Bool) (sampleRate : Nat) (audio : A)
    (h : sampleRate ≠ samplingRate) :
    get_audio normalize trim appendSilence samplingRate trimSilenceFlag addSilenceFlag
        sampleRate audio
      = Except.error
          (toString sampleRate ++ " SR doesn't match target " ++ toString samplingRate ++ " SR") := by
  simp [get_audio, h]

/-- Witness for C9: loading 16000 Hz audio against a configured 22050 Hz
target raises with the source's error message. -/
theorem c9_sample_rate_mismatch_raises_witness :
    get_audio (A := List Int) id id id 22050 false false 16000 []
      = Except.error "16000 SR doesn't match target 22050 SR" :=
  c9_sample_rate_mismatch_raises id id id 22050 false false 16000 [] (by decide)

/-! ## Collator lemmas -/

/-- Inversion of a successful `collate` call. -/
lemma collate_ok_inv {n : Nat} {b : List Example} {out : CollateOut}
    (h : collate n b = Except.ok out) : out = collateBuild b ∧ b ≠ [] := by
  by_cases hb : b.isEmpty = true
  · simp [collate, hb] at h
  · by_cases hok : collateOK b = true
    · refine ⟨?_, by simpa [List.isEmpty_iff] using hb⟩
      simp only [collate, hb, hok, if_false, if_true, Bool.false_eq_true] at h
      simp at h
      exact h.symm
    · simp [collate, hb, hok] at h

/-- Every example appearing in the sorted row order comes from the batch. -/
lemma sortedExamplesOf_mem {b : List Example} {e : Example}
    (h : e ∈ sortedExamplesOf b) : e ∈ b := by
  unfold sortedExamplesOf sortedPairsOf at h
  rcases List.mem_map.1 h with ⟨p, hp, rfl⟩
  rw [List.mem_insertionSort] at hp
  rcases List.mem_map.1 hp with ⟨e', he', rfl⟩
  exact he'

/-- Any member is bounded by the running `foldr max`. -/
lemma le_foldr_max : ∀ (l : List Nat) (a : Nat), a ∈ l → a ≤ l.foldr max 0 := by
  intro l
  induction l with
  | nil => intro a ha; simp at ha
  | cons x t ih =>
    intro a ha
    rcases List.mem_cons.1 ha with rfl | ha
    · simp only [List.foldr_cons]
      exact Nat.le_max_left _ _
    · simp only [List.foldr_cons]
      exact Nat.le_trans (ih a ha) (Nat.le_max_right _ _)

/-- Pointwise value of a gate row. -/
lemma gateRow_getD (L maxT t : Nat) (ht : t < maxT) :
    (gateRow L maxT).getD t 7 = if sliceStart ((L : Int) - 1) maxT ≤ t then 1 else 0 := by
  have hlen : t < (gateRow L maxT).length := by simpa [gateRow] using ht
  rw [List.getD_eq_getElem _ _ hlen]
  simp [gateRow]

/-- The gate row for true length `1 ≤ L ≤ maxT` is zero strictly before
frame `L - 1` and one from frame `L - 1` on. -/
lemma gateRow_spec (L maxT : Nat) (h1 : 1 ≤ L) (h2 : L ≤ maxT) :
    (∀ t, t + 1 < L → (gateRow L maxT).getD t 7 = 0) ∧
    (∀ t, L - 1 ≤ t → t < maxT → (gateRow L maxT).getD t 7 = 1) := by
  have hstart : sliceStart ((L : Int) - 1) maxT = L - 1 := by
    unfold sliceStart
    rw [if_neg (by omega)]
    have htn : ((L : Int) - 1).toNat = L - 1 := by omega
    rw [htn]
    exact Nat.min_eq_left (by omega)
  constructor
  · intro t ht
    rw [gateRow_getD L maxT t (by omega), hstart, if_neg (by omega)]
  · intro t ht1 ht2
    rw [gateRow_getD L maxT t ht2, hstart, if_pos ht1]

/-! ## Concrete examples for witnesses and counterexamples -/

/-- A one-symbol, one-frame example carrying an alignment. -/
def exAlign : Example :=
  { text := [1], mel := [[3]], alignment := some [[5]], ctc := none }

/-- A two-symbol, two-frame example without alignment. -/
def exNoAlign : Example :=
  { text := [2, 4], mel := [[3, 3]], alignment := none, ctc := none }

/-- A one-symbol example with three mel frames. -/
def exThreeFrames : Example :=
  { text := [1], mel := [[9, 9, 9]], alignment := none, ctc := none }

/-- Examples with symbol lengths 5, 3 and 8 (mel times 2, 3 and 1). -/
def exLen5 : Example :=
  { text := [1, 1, 1, 1, 1], mel := [[2, 2]], alignment := none, ctc := none }

def exLen3 : Example :=
  { text := [1, 1, 1], mel := [[2, 2, 2]], alignment := none, ctc := none }

def exLen8 : Example :=
  { text := [1, 1, 1, 1, 1, 1, 1, 1], mel := [[2]], alignment := none, ctc := none }

/-! ## Collator theorems -/

/-- C3 counterexample: a batch mixing presence of the optional alignment
field is not rejected.  `collate` succeeds (no failure) on a two-example
batch where one example has an alignment and the other lacks it, and the
alignment output is silently absent. -/
theorem c3_mixed_presence_not_rejected :
    exAlign.alignment.isSome = true ∧ exNoAlign.alignment = none ∧
    collate 1 [exAlign, exNoAlign] = Except.ok (collateBuild [exAlign, exNoAlign]) ∧
    (collateBuild [exAlign, exNoAlign]).alignments = none := by
  exact ⟨by decide, by decide, rfl, by decide⟩

/-- C3 amended: when `collate` succeeds on a batch in which some example
lacks an optional field (alignment, or the auxiliary CTC sequence), it does
not fail and does not partially populate the field: the corresponding
output is absent for the whole batch. -/
theorem c3_mixed_presence_omits_field (n : Nat) (b : List Example) (out : CollateOut)
    (h : collate n b = Except.ok out) :
    ((∃ e ∈ b, e.alignment = none) → out.alignments = none) ∧
    ((∃ e ∈ b, e.ctc = none) → out.inputs_ctc = none) := by
  obtain ⟨hout, -⟩ := collate_ok_inv h
  subst hout
  constructor
  · rintro ⟨e, he, hnone⟩
    have hany : (b.any fun e => e.alignment.isNone) = true :=
      List.any_eq_true.2 ⟨e, he, by rw [hnone]; rfl⟩
    simp [collateBuild, hany]
  · rintro ⟨e, he, hnone⟩
    have hany : (b.any fun e => e.ctc.isNone) = true :=
      List.any_eq_true.2 ⟨e, he, by rw [hnone]; rfl⟩
    simp [collateBuild, hany]

/-- Witness for the amended C3 on the mixed batch: both optional outputs
are absent entirely. -/
theorem c3_mixed_presence_omits_field_witness :
    (collateBuild [exAlign, exNoAlign]).alignments = none ∧
    (collateBuild [exAlign, exNoAlign]).inputs_ctc = none := by
  have h := c3_mixed_presence_omits_field 1 [exAlign, exNoAlign]
    (collateBuild [exAlign, exNoAlign]) rfl
  exact ⟨h.1 ⟨exNoAlign, by decide, rfl⟩, h.2 ⟨exAlign, by decide, rfl⟩⟩

/-- C5: in every successfully collated batch, the gate row of the example
placed in row `i`, whose true mel length is `L = mel_len[i] ≥ 1`, is 0 at
every frame in `[0, L-2]` and 1 at every frame in
`[L-1, max_target_len-1]` (each gate row has length `max_target_len`). -/
theorem c5_gate_row (n : Nat) (b : List Example) (out : CollateOut)
    (h : collate n b = Except.ok out) (i : Nat) (hi : i < out.inputs.gate.length)
    (hL : 1 ≤ out.inputs.mel_len.getD i 0) :
    (∀ t, t + 1 < out.inputs.mel_len.getD i 0 →
      (out.inputs.gate.getD i []).getD t 7 = 0) ∧
    (∀ t, out.inputs.mel_len.getD i 0 - 1 ≤ t →
      t < (out.inputs.gate.getD i []).length →
      (out.inputs.gate.getD i []).getD t 7 = 1) := by
  obtain ⟨hout, -⟩ := collate_ok_inv h
  subst hout
  have hi' : i < (sortedExamplesOf b).length := by
    simpa [collateBuild] using hi
  have hgate : (collateBuild b).inputs.gate.getD i []
      = gateRow (melTime ((sortedExamplesOf b).getD i default).mel) (maxTargetLenOf b) := by
    show (((sortedExamplesOf b).map fun e =>
      gateRow (melTime e.mel) (maxTargetLenOf b)).getD i []) = _
    rw [List.getD_eq_getElem _ _ (by simpa using hi'), List.getElem_map,
      List.getD_eq_getElem _ _ hi']
  have hmel : (collateBuild b).inputs.mel_len.getD i 0
      = melTime ((sortedExamplesOf b).getD i default).mel := by
    show (((sortedExamplesOf b).map fun e => melTime e.mel).getD i 0) = _
    rw [List.getD_eq_getElem _ _ (by simpa using hi'), List.getElem_map,
      List.getD_eq_getElem _ _ hi']
  have hmem : (sortedExamplesOf b).getD i default ∈ b := by
    rw [List.getD_eq_getElem _ _ hi']
    exact sortedExamplesOf_mem (List.getElem_mem hi')
  have hle : melTime ((sortedExamplesOf b).getD i default).mel ≤ maxTargetLenOf b := by
    exact le_foldr_max _ _ (List.mem_map.2 ⟨_, hmem, rfl⟩)
  rw [hmel] at hL
  have hspec := gateRow_spec (melTime ((sortedExamplesOf b).getD i default).mel)
    (maxTargetLenOf b) hL hle
  rw [hgate, hmel]
  refine ⟨hspec.1, ?_⟩
  intro t ht1 ht2
  exact hspec.2 t ht1 (by simpa [gateRow] using ht2)

/-- Witness for C5 on a one-example batch with true mel length 3 and
`max_target_len = 3`: the gate row is 0 at frame 1 and 1 at frame 2. -/
theorem c5_gate_row_witness :
    ((collateBuild [exThreeFrames]).inputs.gate.getD 0 []).getD 1 7 = 0 ∧
    ((collateBuild [exThreeFrames]).inputs.gate.getD 0 []).getD 2 7 = 1 :=
  ⟨(c5_gate_row 1 [exThreeFrames] (collateBuild [exThreeFrames]) rfl 0
      (by decide) (by decide)).1 1 (by decide),
   (c5_gate_row 1 [exThreeFrames] (collateBuild [exThreeFrames]) rfl 0
      (by decide) (by decide)).2 2 (by decide) (by decide)⟩

/-- C6: a successful collate orders output rows by symbol length
descending: `text_len` is sorted descending and is a permutation of the
batch's symbol lengths, and `mel_len` is aligned to the same permutation
(zipping the two emitted length vectors permutes the batch's
(symbol length, mel time) pairs). -/
theorem c6_sorted_rows (n : Nat) (b : List Example) (out : CollateOut)
    (h : collate n b = Except.ok out) :
    out.inputs.text_len.Sorted (· ≥ ·) ∧
    out.inputs.text_len.Perm (b.map fun e => e.text.length) ∧
    (out.inputs.text_len.zip out.inputs.mel_len).Perm
      (b.map fun e => (e.text.length, melTime e.mel)) := by
  obtain ⟨hout, -⟩ := collate_ok_inv h
  subst hout
  have hmel : (collateBuild b).inputs.mel_len
      = (sortedPairsOf b).map fun p => melTime p.2.mel := by
    show ((sortedPairsOf b).map fun p => p.2).map (fun e => melTime e.mel) = _
    rw [List.map_map]
    rfl
  refine ⟨?_, ?_, ?_⟩
  · show List.Sorted (· ≥ ·) ((sortedPairsOf b).map fun p => p.1)
    have hs : (sortedPairsOf b).Sorted byLenDesc :=
      List.sorted_insertionSort byLenDesc _
    exact List.Pairwise.map _ (fun a b hab => hab) hs
  · show ((sortedPairsOf b).map fun p => p.1).Perm (b.map fun e => e.text.length)
    have hp := (List.perm_insertionSort byLenDesc (b.map fun e => (e.text.length, e))).map
      fun p => p.1
    simpa [sortedPairsOf, List.map_map, Function.comp] using hp
  · rw [hmel]
    show (((sortedPairsOf b).map fun p => p.1).zip
      ((sortedPairsOf b).map fun p => melTime p.2.mel)).Perm _
    rw [List.zip_map']
    have hp := (List.perm_insertionSort byLenDesc (b.map fun e => (e.text.length, e))).map
      fun p => (p.1, melTime p.2.mel)
    simpa [sortedPairsOf, List.map_map, Function.comp] using hp

/-- Witness for C6 on the example batch with symbol lengths `[5, 3, 8]`:
the general conclusions hold, the rows come out ordered `[8, 5, 3]` with
`text_len = [8, 5, 3]`, and `mel_len = [1, 2, 3]` carries the mel times
of those same examples in the same permuted order. -/
theorem c6_sorted_rows_witness :
    ((collateBuild [exLen5, exLen3, exLen8]).inputs.text_len.Sorted (· ≥ ·) ∧
     (collateBuild [exLen5, exLen3, exLen8]).inputs.text_len.Perm
       ([exLen5, exLen3, exLen8].map fun e => e.text.length) ∧
     ((collateBuild [exLen5, exLen3, exLen8]).inputs.text_len.zip
         (collateBuild [exLen5, exLen3, exLen8]).inputs.mel_len).Perm
       ([exLen5, exLen3, exLen8].map fun e => (e.text.length, melTime e.mel))) ∧
    (collateBuild [exLen5, exLen3, exLen8]).inputs.text_len = [8, 5, 3] ∧
    (collateBuild [exLen5, exLen3, exLen8]).inputs.mel_len = [1, 2, 3] :=
  ⟨c6_sorted_rows 1 [exLen5, exLen3, exLen8] (collateBuild [exLen5, exLen3, exLen8])
      rfl,
   by decide, by decide⟩

/-- C10: collate is only defined for nonempty batches: on the empty list it
fails (the source raises `IndexError` while indexing the first sorted
length, before any allocation), and for every nonempty batch the two
first-element accesses — `input_lengths[0]` (the head of the sorted length
vector) and `batch[0]` — succeed. -/
theorem c10_empty_batch (n : Nat) :
    collate n [] = Except.error "IndexError: index 0 out of range" ∧
    ∀ b : List Example, b ≠ [] →
      ((sortedInputLengths b).head?).isSome = true ∧ (b.head?).isSome = true := by
  constructor
  · rfl
  · intro b hb
    constructor
    · rw [List.head?_isSome]
      intro hnil
      have hlen : (sortedInputLengths b).length = b.length := by
        simp [sortedInputLengths, sortedPairsOf, List.length_insertionSort]
      rw [hnil] at hlen
      exact hb (List.length_eq_zero.1 hlen.symm)
    · rw [List.head?_isSome]
      exact hb

/-- Witness for C10: on a concrete nonempty batch both first-element
accesses succeed. -/
theorem c10_empty_batch_witness :
    ((sortedInputLengths [exAlign]).head?).isSome = true ∧
    (([exAlign] : List Example).head?).isSome = true :=
  (c10_empty_batch 1).2 [exAlign] (by decide)

end DataUtils
